import Mathlib

/-!
# Verification of the diplomacy-index aggregation pipeline

Shallow embedding of the data pipeline in `src/app3.py`:
raw per-post records (`df_detail`) are grouped into a long-format
country×year post-count table (`df_long`), pivoted into a wide matrix
(`df_wide`), ranked per year, joined into per-year country summaries,
and queried for footprints and trends.

DataFrames are embedded as lists of records; pandas primitives are
embedded as the corresponding list operations:

* `groupby(['COUNTRY','Year']).size()` — one row per distinct key pair
  with the count of matching raw rows (`toLongForm`).  pandas orders the
  groups by sort order of the key; here groups appear in first-occurrence
  order.  Only the row order differs, and no property below depends on the
  row order of the long form.
* `pd.to_numeric(..., errors='coerce').dropna()` on the `Posts` column is
  the identity here: group sizes are naturals, hence always numeric.
* `pivot_table` (default `aggfunc='mean'`) — mean over the matching group,
  `NaN` (absent) cells embedded as `none`.
* `rank(ascending=False, method='min')` — `1 +` the number of strictly
  greater values (`rankOf`).
* `sort_values` — `mergeSort` with the corresponding key comparison
  (deterministic; pandas' default quicksort is likewise a deterministic
  function of its input, and no property below depends on tie order).
* `merge` (inner join) — nested filter/map; `how='left'` joins produce
  `Option` fields, `none` for an unmatched left row.
-/

namespace DiplomacyIndex

/-- One raw per-post record: a row of `df_detail` (sheet columns
`COUNTRY`, `Year`, `POST TYPE TITLE`, `POST COUNTRY`, `OVERALL RANK`,
`POPULATION (M)`, `GDP (B, USD)`). -/
structure RawPost where
  country : String
  year : Nat
  postType : String
  hostCountry : String
  overallRank : Int
  population : ℚ
  gdp : ℚ
deriving DecidableEq, Repr

/-- One row of the long form `df_long`: columns `Name`, `Year`, `Posts`. -/
structure CountryYearCount where
  name : String
  year : Nat
  posts : Nat
deriving DecidableEq, Repr

/-- The `(COUNTRY, Year)` key pair of every raw row, in row order. -/
def pairsOf (raw : List RawPost) : List (String × Nat) :=
  raw.map (fun r => (r.country, r.year))

/-- The distinct `(COUNTRY, Year)` group keys (`groupby` keys). -/
def groupKeys (raw : List RawPost) : List (String × Nat) :=
  (pairsOf raw).dedup

/-- Size of the `(c, y)` group: the number of raw rows with that key. -/
def groupSize (raw : List RawPost) (c : String) (y : Nat) : Nat :=
  (raw.filter (fun r => r.country = c ∧ r.year = y)).length

/-- Embedding of `df_long = df_detail.groupby(['COUNTRY','Year']).size().reset_index(name='Posts')`
(src/app3.py line 28), with the subsequent `to_numeric(...).dropna()`
(line 30) the identity on the natural-number group sizes. -/
def toLongForm (raw : List RawPost) : List CountryYearCount :=
  (groupKeys raw).map (fun p => ⟨p.1, p.2, groupSize raw p.1 p.2⟩)

/-- The year slice `df_detail[df_detail['Year'] == y]`. -/
def yearSlice (raw : List RawPost) (y : Nat) : List RawPost :=
  raw.filter (fun r => r.year = y)

/-- The year slice `df_long[df_long['Year'] == y]` of the long form. -/
def yearSliceLF (lf : List CountryYearCount) (y : Nat) : List CountryYearCount :=
  lf.filter (fun r => r.year = y)

/-- The `Posts` column of a year slice of the long form. -/
def yearPosts (lf : List CountryYearCount) (y : Nat) : List Nat :=
  (yearSliceLF lf y).map (fun r => r.posts)

/-- Embedding of `Series.rank(ascending=False, method='min')` evaluated at value `p`
against the column `posts`: `1 +` the number of strictly greater values
(competition ranking, ties share the minimal position). -/
def rankOf (posts : List Nat) (p : Nat) : Nat :=
  1 + (posts.filter (fun q => p < q)).length

-- sanity: the spec's example scenario, A: 5 posts, B: 2 posts in 2020
example : rankOf [5, 2] 5 = 1 := by decide
example : rankOf [5, 2] 2 = 2 := by decide
example : rankOf [4, 4, 1] 4 = 1 := by decide
example : rankOf [4, 4, 1] 1 = 3 := by decide

/-! ## Basic facts about the grouping -/

theorem groupSize_eq_count (raw : List RawPost) (c : String) (y : Nat) :
    groupSize raw c y = (pairsOf raw).count (c, y) := by
  induction raw with
  | nil => rfl
  | cons r t ih =>
    simp only [groupSize, pairsOf, List.filter_cons, List.map_cons, List.count_cons]
    by_cases h : r.country = c ∧ r.year = y
    · have hd : decide (r.country = c ∧ r.year = y) = true := by simpa using h
      have hb : ((r.country, r.year) == (c, y)) = true := by
        simp [Prod.ext_iff, h.1, h.2]
      simp only [groupSize, pairsOf] at ih
      simp only [hd, hb, if_true, List.length_cons, ih]
    · have hd : decide (r.country = c ∧ r.year = y) = false := by simpa using h
      have hb : ((r.country, r.year) == (c, y)) = false := by
        simp only [beq_eq_false_iff_ne, ne_eq, Prod.mk.injEq]
        exact fun hc => h ⟨hc.1, hc.2⟩
      simp only [groupSize, pairsOf] at ih
      simp only [hd, hb, Bool.false_eq_true, if_false, ih, Nat.add_zero]

theorem groupKeys_nodup (raw : List RawPost) : (groupKeys raw).Nodup :=
  List.nodup_dedup _

theorem mem_toLongForm_iff (raw : List RawPost) (r : CountryYearCount) :
    r ∈ toLongForm raw ↔
      (r.name, r.year) ∈ groupKeys raw ∧ r.posts = groupSize raw r.name r.year := by
  constructor
  · intro hr
    simp only [toLongForm, List.mem_map] at hr
    obtain ⟨p, hp, rfl⟩ := hr
    exact ⟨hp, rfl⟩
  · rintro ⟨hk, hp⟩
    simp only [toLongForm, List.mem_map]
    exact ⟨(r.name, r.year), hk, by cases r; simp_all⟩

theorem filter_eq_singleton_of_nodup {α : Type} [DecidableEq α] {l : List α}
    (h : l.Nodup) (a : α) :
    l.filter (fun x => x = a) = if a ∈ l then [a] else [] := by
  induction l with
  | nil => simp
  | cons b t ih =>
    obtain ⟨hb, ht⟩ := List.nodup_cons.1 h
    by_cases hba : b = a
    · subst hba
      have : b ∉ t := hb
      simp [List.filter_cons, ih ht, this]
    · simp [List.filter_cons, hba, ih ht, List.mem_cons, Ne.symm hba]

/-- The long form has exactly one row per present `(country, year)` pair,
carrying the group size, and no row for an absent pair. -/
theorem toLongForm_filter (raw : List RawPost) (c : String) (y : Nat) :
    (toLongForm raw).filter (fun r => r.name = c ∧ r.year = y) =
      if (c, y) ∈ groupKeys raw then [⟨c, y, groupSize raw c y⟩] else [] := by
  unfold toLongForm
  rw [List.filter_map]
  have hcongr : ∀ p ∈ groupKeys raw,
      (((fun r : CountryYearCount => decide (r.name = c ∧ r.year = y)) ∘
        (fun p : String × Nat => (⟨p.1, p.2, groupSize raw p.1 p.2⟩ : CountryYearCount))) p)
      = decide (p = (c, y)) := by
    intro p _
    simp [Prod.ext_iff]
  rw [List.filter_congr hcongr]
  rw [filter_eq_singleton_of_nodup (groupKeys_nodup raw) (c, y)]
  by_cases h : (c, y) ∈ groupKeys raw <;> simp [h]

/-! ## C1: grouping completeness -/

theorem count_instances {α : Type} [DecidableEq α] [BEq α] [LawfulBEq α]
    (l : List α) (a : α) : @List.count α instBEqOfDecidableEq a l = l.count a := by
  rw [@List.count_eq_countP _ instBEqOfDecidableEq, List.count_eq_countP]
  refine List.countP_congr ?_
  intro x _
  simp only [beq_iff_eq]

/-- C1: For every collection of raw post records, the sum of the `Posts`
values over all rows of the long form equals the number of raw input rows
whose count value is numeric and parseable (every group size is a natural
number, hence numeric, so this is all raw rows), and each long-form row
has `posts` equal to the number of raw rows sharing its exact
`(country, year)` pair. -/
theorem grouping_completeness (raw : List RawPost) (r : CountryYearCount)
    (hr : r ∈ toLongForm raw) :
    ((toLongForm raw).map (fun s => s.posts)).sum = raw.length ∧
    r.posts = groupSize raw r.name r.year := by
  constructor
  · have h1 : ((toLongForm raw).map (fun s => s.posts)) =
        ((pairsOf raw).dedup.map (fun p => (pairsOf raw).count p)) := by
      unfold toLongForm groupKeys
      rw [List.map_map]
      exact List.map_congr_left (fun p _ => groupSize_eq_count raw p.1 p.2)
    have h2 : (List.map (fun p => (pairsOf raw).count p) (pairsOf raw).dedup) =
        (List.map (fun p => @List.count _ instBEqOfDecidableEq p (pairsOf raw))
          (pairsOf raw).dedup) :=
      List.map_congr_left (fun p _ => (count_instances _ p).symm)
    rw [h1, h2, List.sum_map_count_dedup_eq_length, pairsOf, List.length_map]
  · exact ((mem_toLongForm_iff raw r).1 hr).2

/-- The spec's example scenario: A has 2 posts in 2020, B has 1. -/
def exRaw : List RawPost :=
  [⟨"A", 2020, "Embassy", "H1", 1, 5, 5⟩,
   ⟨"A", 2020, "Consulate", "H2", 1, 5, 5⟩,
   ⟨"B", 2020, "Embassy", "H1", 2, 3, 3⟩]

theorem grouping_completeness_witness :
    (⟨"A", 2020, 2⟩ : CountryYearCount) ∈ toLongForm exRaw ∧
    (((toLongForm exRaw).map (fun s => s.posts)).sum = exRaw.length ∧
      (⟨"A", 2020, 2⟩ : CountryYearCount).posts = groupSize exRaw "A" 2020) :=
  ⟨by decide, grouping_completeness exRaw ⟨"A", 2020, 2⟩ (by decide)⟩

/-! ## Decimal string representations of naturals are injective

Needed twice: the pivot's `str(col)` column relabeling (line 33) and the
merge suffixes `f'_{year}'` (line 45) both key on the decimal rendering
of a year.  Lean core renders naturals via the fuel-based
`Nat.toDigitsCore`; we relate it to Mathlib's `Nat.digits` and derive
injectivity. -/

theorem toDigitsCore_append (f n : Nat) (ds : List Char) :
    Nat.toDigitsCore 10 f n ds = Nat.toDigitsCore 10 f n [] ++ ds := by
  induction f generalizing n ds with
  | zero => simp [Nat.toDigitsCore]
  | succ f ih =>
    simp only [Nat.toDigitsCore]
    by_cases h : n / 10 = 0
    · rw [if_pos h, if_pos h]
      rfl
    · rw [if_neg h, if_neg h]
      rw [ih (n / 10) (Nat.digitChar (n % 10) :: ds),
        ih (n / 10) [Nat.digitChar (n % 10)]]
      simp

theorem toDigitsCore_eq_digits (f : Nat) :
    ∀ n, n ≠ 0 → n ≤ f →
    Nat.toDigitsCore 10 f n [] =
      ((Nat.digits 10 n).map Nat.digitChar).reverse := by
  induction f with
  | zero => intro n h0 hf; omega
  | succ f ih =>
    intro n h0 hf
    rw [Nat.digits_def' (by norm_num : (1 : ℕ) < 10) (Nat.pos_of_ne_zero h0)]
    simp only [Nat.toDigitsCore]
    by_cases h : n / 10 = 0
    · rw [if_pos h, h, Nat.digits_zero]
      simp
    · rw [if_neg h]
      rw [toDigitsCore_append]
      have hle : n / 10 ≤ f := by omega
      rw [ih (n / 10) h hle]
      simp

theorem natRepr_eq_digits (n : Nat) (h0 : n ≠ 0) :
    Nat.repr n = (((Nat.digits 10 n).map Nat.digitChar).reverse).asString := by
  show (Nat.toDigits 10 n).asString = _
  rw [Nat.toDigits, toDigitsCore_eq_digits (n + 1) n h0 (by omega)]

theorem digitChar_inj_lt10 :
    ∀ d1 < 10, ∀ d2 < 10, Nat.digitChar d1 = Nat.digitChar d2 → d1 = d2 := by
  decide

theorem map_digitChar_inj (l1 : List Nat) :
    ∀ l2 : List Nat, (∀ d ∈ l1, d < 10) → (∀ d ∈ l2, d < 10) →
      l1.map Nat.digitChar = l2.map Nat.digitChar → l1 = l2 := by
  induction l1 with
  | nil =>
    intro l2 _ _ h
    cases l2 with
    | nil => rfl
    | cons b u => simp at h
  | cons a t ih =>
    intro l2 h1 h2 h
    cases l2 with
    | nil => simp at h
    | cons b u =>
      simp only [List.map_cons, List.cons.injEq] at h
      have hab := digitChar_inj_lt10 a (h1 a (by simp)) b (h2 b (by simp)) h.1
      subst hab
      rw [ih u (fun d hd => h1 d (by simp [hd])) (fun d hd => h2 d (by simp [hd]))
        h.2]

theorem asString_inj (l1 l2 : List Char) (h : l1.asString = l2.asString) :
    l1 = l2 :=
  congrArg String.data h

theorem natRepr_injective (m n : Nat) (h : Nat.repr m = Nat.repr n) : m = n := by
  by_cases hm : m = 0 <;> by_cases hn : n = 0
  · omega
  · exfalso
    subst hm
    rw [natRepr_eq_digits n hn] at h
    have hl : (['0'] : List Char) =
        ((Nat.digits 10 n).map Nat.digitChar).reverse := asString_inj _ _ h
    have hl2 : (Nat.digits 10 n).map Nat.digitChar = ['0'] := by
      have := congrArg List.reverse hl
      rw [List.reverse_reverse] at this
      exact this.symm
    have hd : Nat.digits 10 n = [0] := by
      apply map_digitChar_inj (Nat.digits 10 n) [0]
      · intro d hd
        exact Nat.digits_lt_base (by norm_num) hd
      · intro d hd
        simp only [List.mem_singleton] at hd
        omega
      · rw [hl2]
        rfl
    have := Nat.ofDigits_digits 10 n
    rw [hd] at this
    simp [Nat.ofDigits] at this
    exact hn this.symm
  · exfalso
    subst hn
    rw [natRepr_eq_digits m hm] at h
    have hl : ((Nat.digits 10 m).map Nat.digitChar).reverse =
        (['0'] : List Char) := asString_inj _ _ h
    have hl2 : (Nat.digits 10 m).map Nat.digitChar = ['0'] := by
      have := congrArg List.reverse hl
      rw [List.reverse_reverse] at this
      exact this
    have hd : Nat.digits 10 m = [0] := by
      apply map_digitChar_inj (Nat.digits 10 m) [0]
      · intro d hdm
        exact Nat.digits_lt_base (by norm_num) hdm
      · intro d hdm
        simp only [List.mem_singleton] at hdm
        omega
      · rw [hl2]
        rfl
    have := Nat.ofDigits_digits 10 m
    rw [hd] at this
    simp [Nat.ofDigits] at this
    exact hm this.symm
  · rw [natRepr_eq_digits m hm, natRepr_eq_digits n hn] at h
    have hl := List.reverse_injective (asString_inj _ _ h)
    have hd : Nat.digits 10 m = Nat.digits 10 n := by
      apply map_digitChar_inj
      · intro d hdm
        exact Nat.digits_lt_base (by norm_num) hdm
      · intro d hdn
        exact Nat.digits_lt_base (by norm_num) hdn
      · exact hl
    exact Nat.digits.injective 10 hd

/-! ## C2: per-year competition ranking (`method='min'`, descending) -/

theorem indexOf_sorted_ge (l : List Nat) (hs : l.Sorted (· ≥ ·)) (p : Nat) (hp : p ∈ l) :
    l.indexOf p = (l.filter (fun q => p < q)).length := by
  induction l with
  | nil => cases hp
  | cons a t ih =>
    rw [List.sorted_cons] at hs
    obtain ⟨ha, ht⟩ := hs
    by_cases hap : a = p
    · subst hap
      rw [List.indexOf_cons_self]
      have hnil : t.filter (fun q => a < q) = [] := by
        rw [List.filter_eq_nil_iff]
        intro q hq
        have hq2 := ha q hq
        simp only [decide_eq_true_eq]
        omega
      rw [List.filter_cons]
      simp [hnil]
    · have hpt : p ∈ t := by
        rcases List.mem_cons.1 hp with h | h
        · exact absurd h.symm hap
        · exact h
      have hpa : p < a := Nat.lt_of_le_of_ne (ha p hpt) (Ne.symm hap)
      rw [List.indexOf_cons_ne _ hap, List.filter_cons, if_pos (by simpa using hpa)]
      rw [List.length_cons, ih ht hpt]

/-- C2: Within a year, a strictly larger post count yields a rank that is
less than or equal (in fact the ranking is by `1 +` the number of strictly
greater values, so strictly less); tied post counts yield the same rank;
and the shared rank equals the smallest ordinal position (1-based) of the
tied value in any descending-sorted arrangement of that year's post
counts — competition ranking with 'min' tie-break, as computed by
`df['Posts'].rank(ascending=False, method='min')` in
`calculate_rank_analysis` (src/app3.py lines 43-44). -/
theorem rank_monotone_min_ties (lf : List CountryYearCount) (y : Nat)
    (a b : CountryYearCount)
    (ha : a ∈ yearSliceLF lf y) (_hb : b ∈ yearSliceLF lf y) :
    (b.posts < a.posts →
      rankOf (yearPosts lf y) a.posts ≤ rankOf (yearPosts lf y) b.posts) ∧
    (a.posts = b.posts →
      rankOf (yearPosts lf y) a.posts = rankOf (yearPosts lf y) b.posts) ∧
    (∀ l' : List Nat, l'.Perm (yearPosts lf y) → l'.Sorted (· ≥ ·) →
      l'.indexOf a.posts + 1 = rankOf (yearPosts lf y) a.posts) := by
  refine ⟨?_, ?_, ?_⟩
  · intro hab
    have h1 : ((yearPosts lf y).filter (fun q => a.posts < q)).length ≤
        ((yearPosts lf y).filter (fun q => b.posts < q)).length := by
      rw [← List.countP_eq_length_filter, ← List.countP_eq_length_filter]
      apply List.countP_mono_left
      intro q _ hq
      simp only [decide_eq_true_eq] at hq ⊢
      omega
    unfold rankOf
    omega
  · intro h
    rw [h]
  · intro l' hperm hsort
    have hmem : a.posts ∈ l' := by
      apply hperm.mem_iff.2
      exact List.mem_map_of_mem (fun r => r.posts) ha
    rw [indexOf_sorted_ge l' hsort a.posts hmem]
    have hlen := (hperm.filter (fun q => decide (a.posts < q))).length_eq
    unfold rankOf
    omega

theorem rank_monotone_min_ties_witness :
    (rankOf (yearPosts (toLongForm exRaw) 2020) 2 ≤
      rankOf (yearPosts (toLongForm exRaw) 2020) 1) ∧
    ([2, 1].indexOf 2 + 1 = rankOf (yearPosts (toLongForm exRaw) 2020) 2) := by
  have h := rank_monotone_min_ties (toLongForm exRaw) 2020
    ⟨"A", 2020, 2⟩ ⟨"B", 2020, 1⟩ (by decide) (by decide)
  exact ⟨h.1 (by decide), h.2.2 [2, 1] (by decide) (by decide)⟩

/-! ## Rank analysis (`calculate_rank_analysis`, src/app3.py lines 38-49) -/

/-- One year's `df[['Name', 'Rank']]`: each row of the year slice of the
long form with its competition rank within that year (lines 41-44). -/
def rankedYear (lf : List CountryYearCount) (y : Nat) : List (String × Nat) :=
  (yearSliceLF lf y).map (fun r => (r.name, rankOf (yearPosts lf y) r.posts))

/-- The suffixed column label the merge at line 45 gives each side's
`Rank` column: `'Rank' + f'_{year}'`. -/
def rankLabel (y : Nat) : String :=
  "Rank_" ++ toString y

/-- The per-row content of `pd.merge(df_start, df_end, on='Name')`
(line 45) in the case where the two suffixed labels `Rank_<start>` and
`Rank_<end>` are distinct: inner join on the country name, one output row
per matching pair of input rows.  When the labels coincide
(`start_year == end_year`) the merge instead yields duplicate columns and
line 46 raises — that case is represented in `calculate_rank_analysis`
and `rankChangeOf` below, which guard on the labels. -/
def mergeRanks (s e : List (String × Nat)) : List (String × Nat × Nat) :=
  s.flatMap (fun a => (e.filter (fun b => b.1 = a.1)).map (fun b => (a.1, a.2, b.2)))

/-- The merged rows with `Rank_Change = Rank_start - Rank_end` (line 46),
again only meaningful when the two `Rank_<year>` labels are distinct. -/
def rankChangeRows (lf : List CountryYearCount) (sy ey : Nat) :
    List (String × Int) :=
  (mergeRanks (rankedYear lf sy) (rankedYear lf ey)).map
    (fun t => (t.1, (t.2.1 : Int) - (t.2.2 : Int)))

/-- The error pandas raises at line 46 when the merge produced duplicate
`Rank_<year>` columns: selecting `df_merged[f'Rank_{start_year}']` then
returns a two-column frame and assigning its two-column difference to the
single new column `Rank_Change` fails. -/
def rankChangeValueError : String :=
  "ValueError: Cannot set a DataFrame with multiple columns to the single column Rank_Change"

/-- Embedding of `calculate_rank_analysis` (lines 39-49).  When
`start_year == end_year` the suffixes `f'_{start_year}'` and
`f'_{end_year}'` of the merge at line 45 coincide, both `Rank` columns
are renamed to the same label, and line 46 raises the `ValueError` above;
otherwise `most_improved` is the top 10 rows by rank change descending
and `biggest_fall` the top 10 ascending. -/
def calculate_rank_analysis (lf : List CountryYearCount) (sy ey : Nat) :
    Except String (List (String × Int) × List (String × Int)) :=
  if rankLabel sy = rankLabel ey then
    .error rankChangeValueError
  else
    .ok (((rankChangeRows lf sy ey).mergeSort (fun a b => b.2 ≤ a.2)).take 10,
      ((rankChangeRows lf sy ey).mergeSort (fun a b => a.2 ≤ b.2)).take 10)

/-- The rank change reported for a single country: the raised `ValueError`
when the two `Rank_<year>` labels coincide (`start_year == end_year`),
otherwise the `Rank_Change` value of the country's merged row, `none`
when the country is missing from either year. -/
def rankChangeOf (lf : List CountryYearCount) (sy ey : Nat) (x : String) :
    Except String (Option Int) :=
  if rankLabel sy = rankLabel ey then
    .error rankChangeValueError
  else
    .ok ((((rankChangeRows lf sy ey).filter (fun t => t.1 = x)).map
      (fun t => t.2)).head?)

/-- The suffixed `Rank` labels coincide exactly for equal years: decimal
string representations of distinct naturals are distinct
(`natRepr_injective` above). -/
theorem rankLabel_eq_iff (sy ey : Nat) : rankLabel sy = rankLabel ey ↔ sy = ey := by
  constructor
  · intro h
    have hd := congrArg String.data h
    rw [rankLabel, rankLabel, String.data_append, String.data_append] at hd
    have hts : (toString sy : String).data = (toString ey : String).data :=
      List.append_cancel_left hd
    exact natRepr_injective sy ey (String.ext hts)
  · intro h
    rw [h]

theorem mergeRanks_filter (s e : List (String × Nat)) (x : String) :
    (mergeRanks s e).filter (fun t => t.1 = x) =
      (s.filter (fun a => a.1 = x)).flatMap
        (fun a => (e.filter (fun b => b.1 = a.1)).map (fun b => (a.1, a.2, b.2))) := by
  induction s with
  | nil => rfl
  | cons a t ih =>
    rw [mergeRanks, List.flatMap_cons, List.filter_append]
    rw [List.filter_map]
    have hconst : ((fun u : String × Nat × Nat => decide (u.1 = x)) ∘
        (fun b : String × Nat => (a.1, a.2, b.2))) = fun _ => decide (a.1 = x) := rfl
    rw [hconst]
    by_cases hx : a.1 = x
    · rw [List.filter_cons, if_pos (by simpa using hx), List.flatMap_cons]
      have htrue : (e.filter (fun b => b.1 = a.1)).filter (fun _ => decide (a.1 = x)) =
          e.filter (fun b => b.1 = a.1) := by
        apply List.filter_eq_self.2
        intro u _
        simpa using hx
      rw [htrue]
      have : (mergeRanks t e).filter (fun u => u.1 = x) =
          (t.filter (fun a => a.1 = x)).flatMap
            (fun a => (e.filter (fun b => b.1 = a.1)).map (fun b => (a.1, a.2, b.2))) := ih
      rw [← this]
      rfl
    · rw [List.filter_cons, if_neg (by simpa using hx)]
      have hfalse : (e.filter (fun b => b.1 = a.1)).filter (fun _ => decide (a.1 = x)) =
          ([] : List (String × Nat)) := by
        apply List.filter_eq_nil_iff.2
        intro u _
        simpa using hx
      rw [hfalse, List.map_nil, List.nil_append]
      exact ih

theorem yearSliceLF_filter_name (raw : List RawPost) (y : Nat) (x : String) :
    (yearSliceLF (toLongForm raw) y).filter (fun r => r.name = x) =
      if (x, y) ∈ groupKeys raw then [⟨x, y, groupSize raw x y⟩] else [] := by
  unfold yearSliceLF
  rw [List.filter_filter]
  have hcongr : ∀ r ∈ toLongForm raw,
      (decide (r.name = x) && decide (r.year = y)) = decide (r.name = x ∧ r.year = y) := by
    intro r _
    by_cases h1 : r.name = x <;> by_cases h2 : r.year = y <;> simp [h1, h2]
  rw [List.filter_congr hcongr, toLongForm_filter]

theorem rankedYear_filter (raw : List RawPost) (y : Nat) (x : String)
    (h : (x, y) ∈ groupKeys raw) :
    (rankedYear (toLongForm raw) y).filter (fun a => a.1 = x) =
      [(x, rankOf (yearPosts (toLongForm raw) y) (groupSize raw x y))] := by
  unfold rankedYear
  rw [List.filter_map]
  have hcomp : ((fun a : String × Nat => decide (a.1 = x)) ∘
      (fun r : CountryYearCount =>
        (r.name, rankOf (yearPosts (toLongForm raw) y) r.posts))) =
      fun r : CountryYearCount => decide (r.name = x) := rfl
  rw [hcomp, yearSliceLF_filter_name, if_pos h, List.map_cons, List.map_nil]

/-- C3 (as amended): For every long form derived from raw records, every
pair of distinct years `(sy, ey)` and every country `x` present in both
years, the rank change computed from `sy` to `ey` is the negation of the
rank change computed from `ey` to `sy`
(`Rank_Change = Rank_start - Rank_end`, src/app3.py lines 45-46).  The
restriction to distinct years is forced: for `sy = ey` the merge suffixes
coincide and line 46 raises instead of computing any value (see the
counterexample `rank_change_diagonal_cex` and C4). -/
theorem rank_change_sign_flip (raw : List RawPost) (sy ey : Nat) (x : String)
    (hne : sy ≠ ey)
    (hs : (x, sy) ∈ groupKeys raw) (he : (x, ey) ∈ groupKeys raw) :
    ∃ c : Int,
      rankChangeOf (toLongForm raw) sy ey x = .ok (some c) ∧
      rankChangeOf (toLongForm raw) ey sy x = .ok (some (-c)) := by
  have hlab : ¬rankLabel sy = rankLabel ey :=
    fun h => hne ((rankLabel_eq_iff sy ey).1 h)
  have hlab2 : ¬rankLabel ey = rankLabel sy :=
    fun h => hne (((rankLabel_eq_iff ey sy).1 h).symm)
  have key : ∀ y1 y2, (x, y1) ∈ groupKeys raw → (x, y2) ∈ groupKeys raw →
      (rankChangeRows (toLongForm raw) y1 y2).filter (fun t => t.1 = x) =
      [(x, (rankOf (yearPosts (toLongForm raw) y1) (groupSize raw x y1) : Int)
        - (rankOf (yearPosts (toLongForm raw) y2) (groupSize raw x y2) : Int))] := by
    intro y1 y2 h1 h2
    unfold rankChangeRows
    rw [List.filter_map]
    have hcomp : ((fun t : String × Int => decide (t.1 = x)) ∘
        (fun t : String × Nat × Nat => (t.1, (t.2.1 : Int) - (t.2.2 : Int)))) =
        fun t : String × Nat × Nat => decide (t.1 = x) := rfl
    rw [hcomp, mergeRanks_filter, rankedYear_filter raw y1 x h1]
    rw [List.flatMap_cons, List.flatMap_nil, List.append_nil]
    rw [rankedYear_filter raw y2 x h2]
    rfl
  refine ⟨(rankOf (yearPosts (toLongForm raw) sy) (groupSize raw x sy) : Int)
      - (rankOf (yearPosts (toLongForm raw) ey) (groupSize raw x ey) : Int), ?_, ?_⟩
  · unfold rankChangeOf
    rw [if_neg hlab, key sy ey hs he]
    rfl
  · unfold rankChangeOf
    rw [if_neg hlab2, key ey sy he hs, neg_sub]
    rfl

/-- Two-year example: A has 2 posts in 2020 and 1 in 2021; B has 1 and 2. -/
def exRaw2 : List RawPost :=
  [⟨"A", 2020, "Embassy", "H1", 1, 5, 5⟩,
   ⟨"A", 2020, "Consulate", "H2", 1, 5, 5⟩,
   ⟨"B", 2020, "Embassy", "H1", 2, 3, 3⟩,
   ⟨"A", 2021, "Embassy", "H1", 2, 5, 5⟩,
   ⟨"B", 2021, "Embassy", "H1", 1, 3, 3⟩,
   ⟨"B", 2021, "Consulate", "H3", 1, 3, 3⟩]

theorem rank_change_sign_flip_witness :
    ∃ c : Int,
      rankChangeOf (toLongForm exRaw2) 2020 2021 "A" = .ok (some c) ∧
      rankChangeOf (toLongForm exRaw2) 2021 2020 "A" = .ok (some (-c)) :=
  rank_change_sign_flip exRaw2 2020 2021 "A" (by decide) (by decide) (by decide)

/-- Ten distinct countries, one post each, in year 2021. -/
def exRaw10 : List RawPost :=
  [⟨"C0", 2021, "Embassy", "H", 1, 1, 1⟩,
   ⟨"C1", 2021, "Embassy", "H", 2, 1, 1⟩,
   ⟨"C2", 2021, "Embassy", "H", 3, 1, 1⟩,
   ⟨"C3", 2021, "Embassy", "H", 4, 1, 1⟩,
   ⟨"C4", 2021, "Embassy", "H", 5, 1, 1⟩,
   ⟨"C5", 2021, "Embassy", "H", 6, 1, 1⟩,
   ⟨"C6", 2021, "Embassy", "H", 7, 1, 1⟩,
   ⟨"C7", 2021, "Embassy", "H", 8, 1, 1⟩,
   ⟨"C8", 2021, "Embassy", "H", 9, 1, 1⟩,
   ⟨"C9", 2021, "Embassy", "H", 10, 1, 1⟩]

/-- C3 counterexample to the claim as stated: it quantifies over every
pair of years, but on the diagonal `start == end` the merge suffixes
coincide, line 46 raises, and no rank change is computed at all — here at
the concrete input `(toLongForm exRaw10, 2021, 2021, country C0)`. -/
theorem rank_change_diagonal_cex :
    ¬∃ c : Int,
      rankChangeOf (toLongForm exRaw10) 2021 2021 "C0" = .ok (some c) ∧
      rankChangeOf (toLongForm exRaw10) 2021 2021 "C0" = .ok (some (-c)) := by
  rintro ⟨c, hc, -⟩
  unfold rankChangeOf at hc
  rw [if_pos rfl] at hc
  exact Except.noConfusion hc

/-! ## C4: degenerate year pair `startYear == endYear` -/

theorem toLongForm_pairs (raw : List RawPost) :
    (toLongForm raw).map (fun r => (r.name, r.year)) = groupKeys raw := by
  unfold toLongForm
  rw [List.map_map]
  have h : ∀ p ∈ groupKeys raw,
      ((fun r : CountryYearCount => (r.name, r.year)) ∘
        (fun p : String × Nat =>
          (⟨p.1, p.2, groupSize raw p.1 p.2⟩ : CountryYearCount))) p = id p :=
    fun p _ => rfl
  rw [List.map_congr_left h, List.map_id]

theorem names_nodup_yearSliceLF (raw : List RawPost) (y : Nat) :
    ((yearSliceLF (toLongForm raw) y).map (fun r => r.name)).Nodup := by
  have h1 : ((yearSliceLF (toLongForm raw) y).map
      (fun r => (r.name, r.year))).Nodup := by
    apply List.Nodup.sublist (List.Sublist.map _ (List.filter_sublist _))
    rw [toLongForm_pairs]
    exact groupKeys_nodup raw
  have h2 : ((yearSliceLF (toLongForm raw) y).map (fun r => (r.name, r.year))) =
      ((yearSliceLF (toLongForm raw) y).map (fun r => r.name)).map
        (fun n => (n, y)) := by
    rw [List.map_map]
    apply List.map_congr_left
    intro r hr
    have hy : r.year = y := by
      unfold yearSliceLF at hr
      have := (List.mem_filter.1 hr).2
      simpa using this
    simp [hy]
  rw [h2] at h1
  exact h1.of_map

theorem filter_fst_singleton {β : Type} (l : List (String × β))
    (h : (l.map (fun p => p.1)).Nodup) (a : String × β) (ha : a ∈ l) :
    l.filter (fun b => b.1 = a.1) = [a] := by
  induction l with
  | nil => cases ha
  | cons b t ih =>
    rw [List.map_cons, List.nodup_cons] at h
    obtain ⟨hb, ht⟩ := h
    rcases List.mem_cons.1 ha with rfl | hat
    · rw [List.filter_cons, if_pos (by simp)]
      have hnil : t.filter (fun c => c.1 = a.1) = [] := by
        rw [List.filter_eq_nil_iff]
        intro c hc
        simp only [decide_eq_true_eq]
        intro hcc
        exact hb (hcc ▸ List.mem_map_of_mem (fun p => p.1) hc)
      rw [hnil]
    · have hba : ¬b.1 = a.1 := by
        intro hcc
        exact hb (hcc ▸ List.mem_map_of_mem (fun p => p.1) hat)
      rw [List.filter_cons, if_neg (by simpa using hba), ih ht hat]

theorem flatMap_eq_map_of_singleton {α β : Type} (l : List α) (f : α → List β)
    (g : α → β) (h : ∀ a ∈ l, f a = [g a]) : l.flatMap f = l.map g := by
  induction l with
  | nil => rfl
  | cons a t ih =>
    rw [List.flatMap_cons, h a (List.mem_cons_self a t), List.map_cons,
      ih (fun b hb => h b (List.mem_cons_of_mem a hb))]
    rfl

theorem mergeRanks_self (l : List (String × Nat))
    (h : (l.map (fun p => p.1)).Nodup) :
    mergeRanks l l = l.map (fun a => (a.1, a.2, a.2)) := by
  unfold mergeRanks
  apply flatMap_eq_map_of_singleton
  intro a ha
  rw [filter_fst_singleton l h a ha]
  rfl

theorem rankedYear_fst (lf : List CountryYearCount) (y : Nat) :
    (rankedYear lf y).map (fun p => p.1) =
      (yearSliceLF lf y).map (fun r => r.name) := by
  unfold rankedYear
  rw [List.map_map]
  rfl

theorem rankChangeRows_self (raw : List RawPost) (y : Nat) :
    rankChangeRows (toLongForm raw) y y =
      (rankedYear (toLongForm raw) y).map (fun a => (a.1, (0 : Int))) := by
  unfold rankChangeRows
  rw [mergeRanks_self _ (by rw [rankedYear_fst]; exact names_nodup_yearSliceLF raw y)]
  rw [List.map_map]
  apply List.map_congr_left
  intro a _
  simp

/-- C4 (code bug): When `calculate_rank_analysis` is called with equal
start and end years, the claim (and spec §4.5) say it completes and
returns 10 zero-change rows; the code instead raises.  The merge at
src/app3.py line 45 uses `suffixes=(f'_{start_year}', f'_{end_year}')`,
identical for equal years, so both `Rank` columns are renamed to the same
label `Rank_<y>`; line 46 then selects a two-column frame and assigning
its two-column difference to the single column `Rank_Change` raises a
`ValueError`.  Proved: at the concrete failing input (10 countries in
year 2021, `start_year = end_year = 2021`) the operation errors; it
errors for every long form and year; and the merged rank changes would
indeed all be 0, so the failure is precisely the degenerate-but-valid
case the spec requires to succeed. -/
theorem same_year_rank_change_raises :
    10 ≤ (yearSliceLF (toLongForm exRaw10) 2021).length ∧
    calculate_rank_analysis (toLongForm exRaw10) 2021 2021 =
      .error rankChangeValueError ∧
    ∀ (raw : List RawPost) (y : Nat),
      calculate_rank_analysis (toLongForm raw) y y =
        .error rankChangeValueError ∧
      ∀ t ∈ rankChangeRows (toLongForm raw) y y, t.2 = 0 := by
  refine ⟨by decide, ?_, ?_⟩
  · unfold calculate_rank_analysis
    rw [if_pos rfl]
  · intro raw y
    constructor
    · unfold calculate_rank_analysis
      rw [if_pos rfl]
    · intro t ht
      rw [rankChangeRows_self] at ht
      obtain ⟨a, -, rfl⟩ := List.mem_map.1 ht
      rfl

/-! ## C8: schema check at ingestion (src/app3.py lines 23-26) -/

/-- Embedding of `required_cols = ['COUNTRY', 'Year', 'OVERALL RANK']` (line 23). -/
def requiredCols : List String := ["COUNTRY", "Year", "OVERALL RANK"]

/-- Embedding of `load_and_prepare_data` after the file has been parsed (lines 23-35):
the input arrives as its column schema plus its rows.  If a required
column is missing the app calls `st.error` and `st.stop()` — a fatal halt,
embedded as `Except.error "SchemaError"`.  Otherwise it returns the long
form and the raw rows (`df_long`, `df_detail`); the wide pivot `df_wide`
is the derived view `pivotColStr` of the long form, defined separately. -/
def load_and_prepare_data (cols : List String) (raw : List RawPost) :
    Except String (List CountryYearCount × List RawPost) :=
  if requiredCols.all (fun c => c ∈ cols) then
    .ok (toLongForm raw, raw)
  else
    .error "SchemaError"

/-- C8: Ingestion fails with `SchemaError` if and only if at least one of
the required fields `{COUNTRY, Year, OVERALL RANK}` is absent from the
input schema; the check depends only on the schema (it happens once at
ingestion, before any aggregation, regardless of the rows), and when all
three required fields are present ingestion proceeds to the aggregation
without this error. -/
theorem schema_error_iff (cols : List String) (raw raw' : List RawPost) :
    (load_and_prepare_data cols raw = .error "SchemaError" ↔
      ∃ c ∈ requiredCols, c ∉ cols) ∧
    ((∀ c ∈ requiredCols, c ∈ cols) →
      load_and_prepare_data cols raw = .ok (toLongForm raw, raw)) ∧
    ((∃ c ∈ requiredCols, c ∉ cols) →
      load_and_prepare_data cols raw = load_and_prepare_data cols raw') := by
  unfold load_and_prepare_data
  by_cases h : requiredCols.all (fun c => decide (c ∈ cols)) = true
  · rw [if_pos h, if_pos h]
    have hall := List.all_eq_true.1 h
    refine ⟨⟨fun hcontra => absurd hcontra (by simp), ?_⟩, fun _ => rfl, ?_⟩
    · rintro ⟨c, hc, hnc⟩
      exact absurd (by simpa using hall c hc) hnc
    · rintro ⟨c, hc, hnc⟩
      exact absurd (by simpa using hall c hc) hnc
  · rw [if_neg h, if_neg h]
    refine ⟨⟨fun _ => ?_, fun _ => rfl⟩, fun hall => ?_, fun _ => rfl⟩
    · rw [List.all_eq_true] at h
      push_neg at h
      obtain ⟨c, hc, hnc⟩ := h
      exact ⟨c, hc, by simpa using hnc⟩
    · exact absurd (List.all_eq_true.2 (fun c hc => by simpa using hall c hc)) h

theorem schema_error_iff_witness :
    (load_and_prepare_data ["COUNTRY", "Year"] exRaw = .error "SchemaError" ↔
      ∃ c ∈ requiredCols, c ∉ ["COUNTRY", "Year"]) ∧
    ((∃ c ∈ requiredCols, c ∉ ["COUNTRY", "Year"]) ∧
      load_and_prepare_data
        ["COUNTRY", "Year", "OVERALL RANK", "POST TYPE TITLE"] exRaw =
        .ok (toLongForm exRaw, exRaw)) :=
  ⟨(schema_error_iff ["COUNTRY", "Year"] exRaw exRaw).1,
   by decide,
   (schema_error_iff ["COUNTRY", "Year", "OVERALL RANK", "POST TYPE TITLE"]
      exRaw exRaw).2.1 (by decide)⟩

/-! ## C9: trend query (tab4, src/app3.py lines 140-143) -/

/-- Embedding of `trend_df = df_long[df_long['Name'].isin(selected)]` then
`trend_df[trend_df['Year'] != 2019]` (lines 141-142).  The source
hard-codes the single excluded year 2019; per the spec the exclusion set
is a parameter here (the source's behaviour is `excludeYears = [2019]`). -/
def trendFiltered (lf : List CountryYearCount) (countries : List String)
    (excludeYears : List Nat) : List CountryYearCount :=
  (lf.filter (fun r => r.name ∈ countries)).filter
    (fun r => r.year ∉ excludeYears)

/-- A cell of
`trend_pivot = trend_df.pivot_table(index='Year', columns='Name', values='Posts')`
(line 143, default mean aggregation): the year→country→posts mapping,
`none` for an absent combination. -/
def trendCell (lf : List CountryYearCount) (countries : List String)
    (excludeYears : List Nat) (y : Nat) (c : String) : Option ℚ :=
  let g := (trendFiltered lf countries excludeYears).filter
    (fun r => r.year = y ∧ r.name = c)
  if g.isEmpty then none
  else some ((g.map (fun r => (r.posts : ℚ))).sum / g.length)

theorem trendFiltered_filter (lf : List CountryYearCount)
    (countries : List String) (excl : List Nat) (y : Nat) (c : String)
    (hcy : c ∈ countries) (hyy : y ∉ excl) :
    (trendFiltered lf countries excl).filter
        (fun r => r.year = y ∧ r.name = c) =
      lf.filter (fun r => r.name = c ∧ r.year = y) := by
  unfold trendFiltered
  rw [List.filter_filter, List.filter_filter]
  apply List.filter_congr
  intro r _
  by_cases h1 : r.name = c <;> by_cases h2 : r.year = y <;>
    simp [h1, h2, hcy, hyy]

/-- C9: The trend pivot has no entry for any excluded year, no entry for
any country outside the requested set, the `posts` value at every
`(year, country)` pair that is requested, not excluded and present in the
long form, and no entry at a `(year, country)` pair absent from the long
form (src/app3.py lines 140-143, with the hard-coded excluded year 2019
treated as the parameter `excludeYears`). -/
theorem trend_query_cells (raw : List RawPost) (countries : List String)
    (excludeYears : List Nat) :
    (∀ y ∈ excludeYears, ∀ c,
      trendCell (toLongForm raw) countries excludeYears y c = none) ∧
    (∀ y, ∀ c, c ∉ countries →
      trendCell (toLongForm raw) countries excludeYears y c = none) ∧
    (∀ r ∈ toLongForm raw, r.year ∉ excludeYears → r.name ∈ countries →
      trendCell (toLongForm raw) countries excludeYears r.year r.name =
        some (r.posts : ℚ)) ∧
    (∀ y c, (∀ r ∈ toLongForm raw, ¬(r.name = c ∧ r.year = y)) →
      trendCell (toLongForm raw) countries excludeYears y c = none) := by
  refine ⟨?_, ?_, ?_, ?_⟩
  · intro y hy c
    unfold trendCell
    have hnil : (trendFiltered (toLongForm raw) countries excludeYears).filter
        (fun r => r.year = y ∧ r.name = c) = [] := by
      rw [List.filter_eq_nil_iff]
      intro r hr
      have hex : r.year ∉ excludeYears := by
        have := (List.mem_filter.1 hr).2
        simpa using this
      simp only [decide_eq_true_eq]
      rintro ⟨rfl, -⟩
      exact hex hy
    rw [hnil]
    rfl
  · intro y c hc
    unfold trendCell
    have hnil : (trendFiltered (toLongForm raw) countries excludeYears).filter
        (fun r => r.year = y ∧ r.name = c) = [] := by
      rw [List.filter_eq_nil_iff]
      intro r hr
      have hin : r.name ∈ countries := by
        have := (List.mem_filter.1 ((List.mem_filter.1 hr).1)).2
        simpa using this
      simp only [decide_eq_true_eq]
      rintro ⟨-, rfl⟩
      exact hc hin
    rw [hnil]
    rfl
  · intro r hr hex hin
    unfold trendCell
    have hkey := (mem_toLongForm_iff raw r).1 hr
    have hsingle : (trendFiltered (toLongForm raw) countries
        excludeYears).filter (fun s => s.year = r.year ∧ s.name = r.name) =
        [r] := by
      rw [trendFiltered_filter _ _ _ _ _ hin hex,
        toLongForm_filter raw r.name r.year, if_pos hkey.1]
      have : (⟨r.name, r.year, groupSize raw r.name r.year⟩ :
          CountryYearCount) = r := by
        cases r
        simp_all
      rw [this]
    rw [hsingle]
    simp
  · intro y c habs
    unfold trendCell
    have hnil : (trendFiltered (toLongForm raw) countries excludeYears).filter
        (fun r => r.year = y ∧ r.name = c) = [] := by
      rw [List.filter_eq_nil_iff]
      intro r hr
      have hmem : r ∈ toLongForm raw :=
        List.mem_of_mem_filter ((List.mem_filter.1 hr).1)
      simp only [decide_eq_true_eq]
      rintro ⟨h1, h2⟩
      exact habs r hmem ⟨h2, h1⟩
    rw [hnil]
    rfl

theorem trend_query_cells_witness :
    trendCell (toLongForm exRaw2) ["A"] [2019] 2019 "A" = none ∧
    trendCell (toLongForm exRaw2) ["A"] [2019] 2020 "B" = none ∧
    trendCell (toLongForm exRaw2) ["A"] [2019] 2020 "A" =
      some (((⟨"A", 2020, 2⟩ : CountryYearCount).posts : ℚ)) ∧
    trendCell (toLongForm exRaw2) ["A"] [2019] 2022 "A" = none :=
  ⟨(trend_query_cells exRaw2 ["A"] [2019]).1 2019 (by decide) "A",
   (trend_query_cells exRaw2 ["A"] [2019]).2.1 2020 "B" (by decide),
   (trend_query_cells exRaw2 ["A"] [2019]).2.2.1 ⟨"A", 2020, 2⟩
     (by decide) (by decide) (by decide),
   (trend_query_cells exRaw2 ["A"] [2019]).2.2.2 2022 "A" (by decide)⟩

/-! ## C10: footprint query (tab3, src/app3.py lines 127-129) -/

/-- The `POST COUNTRY` column of the home country's rows of the year
slice (`country_posts`, lines 127-128). -/
def hostColumn (raw : List RawPost) (home : String) (y : Nat) : List String :=
  ((yearSlice raw y).filter (fun r => r.country = home)).map
    (fun r => r.hostCountry)

/-- Embedding of `post_locations = country_posts['POST COUNTRY'].value_counts()`
(line 128): one `(host country, number of posts)` pair per distinct host
country, ordered by count descending (`value_counts` order). -/
def footprint (raw : List RawPost) (home : String) (y : Nat) :
    List (String × Nat) :=
  ((hostColumn raw home y).dedup.map
    (fun h => (h, (hostColumn raw home y).count h))).mergeSort
    (fun a b => b.2 ≤ a.2)

theorem hostColumn_length (raw : List RawPost) (home : String) (y : Nat) :
    (hostColumn raw home y).length = groupSize raw home y := by
  unfold hostColumn yearSlice groupSize
  rw [List.length_map, List.filter_filter]
  congr 1
  apply List.filter_congr
  intro r _
  by_cases h1 : r.country = home <;> by_cases h2 : r.year = y <;>
    simp [h1, h2]

/-- C10: The per-host counts returned by the footprint query for
`(homeCountry, year)` sum to the `posts` value of the long-form row for
that same pair when that row exists, and the footprint is empty when no
such row exists: the footprint partitions the country's total posts by
host country (src/app3.py lines 127-129 against lines 28-30). -/
theorem footprint_partitions_posts (raw : List RawPost) (home : String)
    (y : Nat) (r : CountryYearCount) :
    (r ∈ toLongForm raw → r.name = home → r.year = y →
      ((footprint raw home y).map (fun p => p.2)).sum = r.posts) ∧
    ((home, y) ∉ groupKeys raw → footprint raw home y = []) := by
  constructor
  · intro hr hname hyear
    have hperm : ((footprint raw home y).map (fun p => p.2)).Perm
        (((hostColumn raw home y).dedup.map
          (fun h => (h, (hostColumn raw home y).count h))).map
            (fun p => p.2)) :=
      (List.mergeSort_perm _ _).map _
    rw [hperm.sum_eq, List.map_map]
    have hcounts : ((hostColumn raw home y).dedup.map
        ((fun p : String × Nat => p.2) ∘
          (fun h => (h, (hostColumn raw home y).count h)))) =
        ((hostColumn raw home y).dedup.map
          (fun h => @List.count _ instBEqOfDecidableEq h
            (hostColumn raw home y))) :=
      List.map_congr_left (fun h _ => (count_instances _ h).symm)
    rw [hcounts, List.sum_map_count_dedup_eq_length, hostColumn_length]
    have := ((mem_toLongForm_iff raw r).1 hr).2
    rw [hname, hyear] at this
    exact this.symm
  · intro habs
    have hnil : hostColumn raw home y = [] := by
      unfold hostColumn
      rw [List.map_eq_nil_iff, List.filter_eq_nil_iff]
      intro r' hr'
      simp only [decide_eq_true_eq]
      intro hcountry
      apply habs
      have hy : r'.year = y := by
        have := (List.mem_filter.1 hr').2
        simpa using this
      have hmem : r' ∈ raw := List.mem_of_mem_filter hr'
      have : (r'.country, r'.year) ∈ pairsOf raw :=
        List.mem_map_of_mem (fun s => (s.country, s.year)) hmem
      rw [hcountry, hy] at this
      exact List.mem_dedup.2 this
    unfold footprint
    rw [hnil]
    simp

theorem footprint_partitions_posts_witness :
    ((⟨"B", 2021, 2⟩ : CountryYearCount) ∈ toLongForm exRaw2 ∧
      ((footprint exRaw2 "B" 2021).map (fun p => p.2)).sum =
        (⟨"B", 2021, 2⟩ : CountryYearCount).posts) ∧
    footprint exRaw2 "Z" 2021 = [] :=
  ⟨⟨by decide,
    (footprint_partitions_posts exRaw2 "B" 2021 ⟨"B", 2021, 2⟩).1
      (by decide) rfl rfl⟩,
   (footprint_partitions_posts exRaw2 "Z" 2021 ⟨"Z", 2021, 0⟩).2 (by decide)⟩

/-! ## C6/C7: per-year country summary (tab2, src/app3.py lines 86-117) -/

/-- Embedding of `Embassies = count('Embassy') + count('High Commission')` for one
country over the year slice (lines 94-98): `value_counts().unstack(fill_value=0)`
followed by summing the two columns, with `.get(col, 0)` for a column
absent from the whole slice. -/
def embassyCount (slice : List RawPost) (c : String) : Nat :=
  (slice.filter (fun r => r.country = c ∧ r.postType = "Embassy")).length +
  (slice.filter (fun r => r.country = c ∧ r.postType = "High Commission")).length

/-- Embedding of `Consulates = count('Consulate') + count('Consulate General')`
(line 97). -/
def consulateCount (slice : List RawPost) (c : String) : Nat :=
  (slice.filter (fun r => r.country = c ∧ r.postType = "Consulate")).length +
  (slice.filter (fun r => r.country = c ∧ r.postType = "Consulate General")).length

/-- One row of `df_final_display` (lines 100-106): deduplicated metadata,
inner-joined total posts, left-joined post-type breakdown (`Option`
fields, `none` for an unmatched left row). -/
structure SummaryRow where
  rank : Int
  country : String
  population : ℚ
  gdp : ℚ
  totalPosts : Nat
  embassies : Option Nat
  consulates : Option Nat
deriving DecidableEq, Repr

/-- The summary rows for a year (lines 86-106): one candidate row per
country of the deduplicated metadata (`drop_duplicates(subset=['COUNTRY'])`,
first occurrence wins), kept only when the country also appears in the
year's long-form totals (inner merge), with the Embassies/Consulates
breakdown left-joined on the countries present in the year slice (the
`groupby('COUNTRY')` keys of `post_type_counts`). -/
def summaryRows (raw : List RawPost) (y : Nat) : List SummaryRow :=
  ((yearSlice raw y).map (fun r => r.country)).dedup.filterMap (fun c =>
    match (yearSlice raw y).find? (fun r => r.country = c),
        ((toLongForm raw).filter (fun r => r.name = c ∧ r.year = y)).head? with
    | some m, some t =>
        some ⟨m.overallRank, c, m.population, m.gdp, t.posts,
          if (yearSlice raw y).any (fun r => r.country = c) then
            some (embassyCount (yearSlice raw y) c) else none,
          if (yearSlice raw y).any (fun r => r.country = c) then
            some (consulateCount (yearSlice raw y) c) else none⟩
    | _, _ => none)

/-- Embedding of `df_display.sort_values(by='Rank').set_index('Rank')` (line 115):
sorting by rank; `set_index` keeps duplicate ranks. -/
def buildSummary (raw : List RawPost) (y : Nat) : List SummaryRow :=
  (summaryRows raw y).mergeSort (fun a b => a.rank ≤ b.rank)

/-- C6: Every summary row (a country present in that year's post totals)
carries numeric values, not absent ones, in its Embassies and Consulates
fields: `some` of the respective label counts, hence `some 0` for both
whenever none of that country's posts for the year carries one of the
four recognized labels (src/app3.py lines 94-106). -/
theorem summary_breakdown (raw : List RawPost) (y : Nat) (s : SummaryRow)
    (hs : s ∈ summaryRows raw y) :
    s.embassies = some (embassyCount (yearSlice raw y) s.country) ∧
    s.consulates = some (consulateCount (yearSlice raw y) s.country) ∧
    ((∀ r ∈ yearSlice raw y, r.country = s.country →
        r.postType ≠ "Embassy" ∧ r.postType ≠ "High Commission" ∧
        r.postType ≠ "Consulate" ∧ r.postType ≠ "Consulate General") →
      s.embassies = some 0 ∧ s.consulates = some 0) := by
  obtain ⟨c, hc, hmatch⟩ := List.mem_filterMap.1 hs
  have hany : (yearSlice raw y).any (fun r => r.country = c) = true := by
    rw [List.any_eq_true]
    obtain ⟨r, hr, hrc⟩ := List.mem_map.1 (List.mem_dedup.1 hc)
    exact ⟨r, hr, by simpa using hrc⟩
  revert hmatch
  cases hfind : (yearSlice raw y).find? (fun r => r.country = c) with
  | none => intro hmatch; cases hmatch
  | some m =>
    cases hhead :
        ((toLongForm raw).filter (fun r => r.name = c ∧ r.year = y)).head? with
    | none => intro hmatch; cases hmatch
    | some t =>
      intro hmatch
      rw [hany] at hmatch
      have hsdef := Option.some.inj hmatch
      subst hsdef
      refine ⟨by simp, by simp, ?_⟩
      intro habs
      have he : embassyCount (yearSlice raw y) c = 0 := by
        unfold embassyCount
        rw [List.filter_eq_nil_iff.2, List.filter_eq_nil_iff.2]
        · rfl
        · intro r hr
          simp only [decide_eq_true_eq, not_and]
          intro hrc
          exact (habs r hr hrc).2.1
        · intro r hr
          simp only [decide_eq_true_eq, not_and]
          intro hrc
          exact (habs r hr hrc).1
      have hcons : consulateCount (yearSlice raw y) c = 0 := by
        unfold consulateCount
        rw [List.filter_eq_nil_iff.2, List.filter_eq_nil_iff.2]
        · rfl
        · intro r hr
          simp only [decide_eq_true_eq, not_and]
          intro hrc
          exact (habs r hr hrc).2.2.2
        · intro r hr
          simp only [decide_eq_true_eq, not_and]
          intro hrc
          exact (habs r hr hrc).2.2.1
      constructor
      · simp [he]
      · simp [hcons]

/-- A country (B) whose only 2020 post carries an unrecognized label. -/
def exRaw3 : List RawPost :=
  [⟨"A", 2020, "Embassy", "H1", 1, 5, 5⟩,
   ⟨"A", 2020, "Trade Office", "H2", 1, 5, 5⟩,
   ⟨"B", 2020, "Trade Office", "H1", 2, 3, 3⟩]

theorem summary_breakdown_witness :
    (⟨2, "B", 3, 3, 1, some 0, some 0⟩ : SummaryRow) ∈ summaryRows exRaw3 2020 ∧
    (⟨2, "B", 3, 3, 1, some 0, some 0⟩ : SummaryRow).embassies =
      some (embassyCount (yearSlice exRaw3 2020) "B") ∧
    ((⟨2, "B", 3, 3, 1, some 0, some 0⟩ : SummaryRow).embassies = some 0 ∧
      (⟨2, "B", 3, 3, 1, some 0, some 0⟩ : SummaryRow).consulates = some 0) :=
  ⟨by decide,
   (summary_breakdown exRaw3 2020 ⟨2, "B", 3, 3, 1, some 0, some 0⟩
     (by decide)).1,
   (summary_breakdown exRaw3 2020 ⟨2, "B", 3, 3, 1, some 0, some 0⟩
     (by decide)).2.2 (by decide)⟩

/-- C7: When two countries share the same overall rank value for the same
year, building the summary is a total function (no error), resolves the
collision deterministically (it is a pure function: two runs on the same
input are identical), and retains both rows: the sorted output is a
permutation of the summary rows, sorted by rank with duplicates kept
(src/app3.py lines 114-115: `sort_values` then `set_index`, which keeps
duplicate index values). -/
theorem summary_duplicate_ranks (raw : List RawPost) (y : Nat)
    (_h : ∃ a ∈ summaryRows raw y, ∃ b ∈ summaryRows raw y,
      a ≠ b ∧ a.rank = b.rank) :
    (buildSummary raw y).Perm (summaryRows raw y) ∧
    (buildSummary raw y).Pairwise (fun a b => a.rank ≤ b.rank) ∧
    buildSummary raw y = buildSummary raw y := by
  refine ⟨List.mergeSort_perm _ _, ?_, rfl⟩
  have hs := @List.sorted_mergeSort SummaryRow
    (fun a b => decide (a.rank ≤ b.rank))
    (fun a b c hab hbc => by
      simp only [decide_eq_true_eq] at hab hbc ⊢
      exact le_trans hab hbc)
    (fun a b => by
      simpa using Int.le_total a.rank b.rank)
    (summaryRows raw y)
  exact hs.imp (fun hab => by simpa using hab)

/-- Two countries sharing overall rank 1 in 2020. -/
def exRaw4 : List RawPost :=
  [⟨"A", 2020, "Embassy", "H1", 1, 5, 5⟩,
   ⟨"B", 2020, "Embassy", "H2", 1, 3, 3⟩]

theorem summary_duplicate_ranks_witness :
    (∃ a ∈ summaryRows exRaw4 2020, ∃ b ∈ summaryRows exRaw4 2020,
      a ≠ b ∧ a.rank = b.rank) ∧
    (buildSummary exRaw4 2020).Perm (summaryRows exRaw4 2020) ∧
    (buildSummary exRaw4 2020).Pairwise (fun a b => a.rank ≤ b.rank) :=
  ⟨by decide,
   (summary_duplicate_ranks exRaw4 2020 (by decide)).1,
   (summary_duplicate_ranks exRaw4 2020 (by decide)).2.1⟩

/-! ## C5: wide pivot with stringified year columns

`df_wide = df_long.pivot_table(index='Name', columns='Year', values='Posts')`
keys its columns by the `Year` values; line 33 then renames every column
label to `str(col)`.  The renaming is faithful because decimal string
representations of distinct naturals are distinct (`natRepr_injective`
above). -/

/-- The distinct `Year` values observed in the long form: the pivot's
column keys before stringification (line 32). -/
def observedYears (lf : List CountryYearCount) : List Nat :=
  (lf.map (fun r => r.year)).dedup

/-- A cell of
`df_wide = df_long.pivot_table(index='Name', columns='Year', values='Posts')`
(line 32, default mean aggregation): `none` when the country-year group
is absent (`NaN`). -/
def pivotCell (lf : List CountryYearCount) (c : String) (y : Nat) :
    Option ℚ :=
  let g := lf.filter (fun r => r.name = c ∧ r.year = y)
  if g.isEmpty then none
  else some ((g.map (fun r => (r.posts : ℚ))).sum / g.length)

/-- A cell of the pivot after
`df_wide.columns = [str(col) for col in df_wide.columns]` (line 33): the
column labelled `s` is the observed year column whose stringified label
is `s`, absent when no observed year stringifies to `s`. -/
def pivotCellStr (lf : List CountryYearCount) (c : String) (s : String) :
    Option ℚ :=
  ((observedYears lf).find? (fun y => toString y = s)).bind
    (fun y => pivotCell lf c y)

theorem find?_toString (years : List Nat) (y : Nat) :
    years.find? (fun y' => toString y' = toString y) =
      if y ∈ years then some y else none := by
  induction years with
  | nil => rfl
  | cons a t ih =>
    by_cases h : a = y
    · subst h
      rw [List.find?_cons_of_pos _ (by simp), if_pos (List.mem_cons_self a t)]
    · have hpred : ¬(decide (toString a = toString y) = true) := by
        simp only [decide_eq_true_eq]
        intro hts
        exact h (natRepr_injective a y hts)
      rw [List.find?_cons_of_neg (p := fun y' => decide (toString y' = toString y))
        t hpred, ih]
      by_cases hmem : y ∈ t
      · rw [if_pos hmem, if_pos (List.mem_cons_of_mem a hmem)]
      · rw [if_neg hmem, if_neg (by
          intro hc
          rcases List.mem_cons.1 hc with hc | hc
          · exact h hc.symm
          · exact hmem hc)]

/-- C5: For every `(country, year)` pair present in the long form with
`posts = p`, the wide pivot's cell at row `country` and column
`str(year)` is `p`; for every combination absent from the long form the
cell is absent (`none`), not zero (src/app3.py lines 32-33). -/
theorem pivot_symmetry (raw : List RawPost) (c : String) (y : Nat)
    (r : CountryYearCount) :
    (r ∈ toLongForm raw → r.name = c → r.year = y →
      pivotCellStr (toLongForm raw) c (toString y) = some (r.posts : ℚ)) ∧
    ((∀ s ∈ toLongForm raw, ¬(s.name = c ∧ s.year = y)) →
      pivotCellStr (toLongForm raw) c (toString y) = none) := by
  constructor
  · intro hr hname hyear
    subst hname
    subst hyear
    unfold pivotCellStr
    have hy : r.year ∈ observedYears (toLongForm raw) :=
      List.mem_dedup.2 (List.mem_map_of_mem (fun s => s.year) hr)
    rw [find?_toString, if_pos hy, Option.some_bind]
    unfold pivotCell
    have hkey := (mem_toLongForm_iff raw r).1 hr
    rw [toLongForm_filter raw r.name r.year, if_pos hkey.1, ← hkey.2]
    simp
  · intro habs
    unfold pivotCellStr
    rw [find?_toString]
    by_cases hy : y ∈ observedYears (toLongForm raw)
    · rw [if_pos hy, Option.some_bind]
      unfold pivotCell
      rw [toLongForm_filter raw c y, if_neg (fun hk =>
        habs ⟨c, y, groupSize raw c y⟩
          ((mem_toLongForm_iff raw ⟨c, y, groupSize raw c y⟩).2 ⟨hk, rfl⟩)
          ⟨rfl, rfl⟩)]
      rfl
    · rw [if_neg hy]
      rfl

theorem pivot_symmetry_witness :
    ((⟨"A", 2020, 2⟩ : CountryYearCount) ∈ toLongForm exRaw2 ∧
      pivotCellStr (toLongForm exRaw2) "A" (toString 2020) =
        some (((⟨"A", 2020, 2⟩ : CountryYearCount).posts : ℚ))) ∧
    pivotCellStr (toLongForm exRaw2) "A" (toString 2022) = none :=
  ⟨⟨by decide,
    (pivot_symmetry exRaw2 "A" 2020 ⟨"A", 2020, 2⟩).1 (by decide) rfl rfl⟩,
   (pivot_symmetry exRaw2 "A" 2022 ⟨"A", 2022, 0⟩).2 (by decide)⟩

end DiplomacyIndex
